import Mathlib

/-!
Verification of the task-orchestration core of the Agentic-CLI repository
(file `src/core/agent.ts`, class `AgentOrchestrator`), against its
natural-language specification.

The TypeScript class is shallowly embedded as pure Lean functions with
explicit state passing:

* the AI collaborator (`this.aiProvider.chat`) is an environment function
  mapping the prompts and the index of the body invocation to either an
  error message (a thrown `Error`) or the returned `content` string;
* `JSON.parse` (a JavaScript builtin, not repository code) is abstracted
  as an environment predicate saying whether a string parses, with the
  parsed value kept abstract as the source string;
* wall-clock time inside `waitForDependencies` is idealized: each poll
  interval advances elapsed time by exactly 100 ms (the fixed
  `checkInterval` of the source), and the Result Store contents visible
  at the k-th poll are given by a time-indexed store `storeAt k`, which
  models concurrent writers (`assignTask`) updating `this.taskResults`
  between polls;
* thrown errors are `Except.error` values carrying `error.message`.
-/

/-- Task kind, embedding the union type of `AgentTask.type`
(`src/types/agent.ts`): code-edit, search, git, analyze, custom. -/
inductive TaskType where
  | codeEdit
  | search
  | git
  | analyze
  | custom
deriving DecidableEq, Repr

/-- Embedding of the `AgentTask` interface (`src/types/agent.ts`).
The opaque `input` payload is kept as a string. Optional fields are
`Option`; note that in the source `dependencies` is `string[] | undefined`
and an empty array is truthy, so `some []` and `none` behave differently
in `executeTask`, exactly as in JavaScript. -/
structure AgentTask where
  id : String
  type : TaskType
  description : String
  input : String
  priority : Int
  dependencies : Option (List String)
  timeout : Option Nat
  retryOnFailure : Option Bool
deriving DecidableEq, Repr

/-- Outcome status, embedding the union type of `AgentResult.status`.
The constructor `part` embeds the source literal `partial`. -/
inductive ResultStatus where
  | success
  | failure
  | part
deriving DecidableEq, Repr

/-- The opaque `output` payload of an `AgentResult`: `null` on failure,
a parsed JSON value (kept abstract as the source string) when
`JSON.parse` succeeded, or the fallback wrapper object
`\x7b raw: content \x7d` produced by `parseTaskResult` when parsing failed. -/
inductive Output where
  | null
  | parsed (content : String)
  | raw (content : String)
deriving DecidableEq, Repr

/-- Embedding of the `metrics` record of `AgentResult`. The source only
ever fills `duration`; `tokensUsed` and `filesModified` stay absent. -/
structure Metrics where
  duration : Nat
  tokensUsed : Option Nat
  filesModified : Option Nat
deriving DecidableEq, Repr

/-- Embedding of the `AgentResult` interface (`src/types/agent.ts`). -/
structure AgentResult where
  taskId : String
  status : ResultStatus
  output : Output
  error : Option String
  metrics : Metrics
deriving DecidableEq, Repr

/-- Embedding of the `AgentConfig` interface: concurrency bound,
dependency-wait timeout in milliseconds, retry attempt count. -/
structure AgentConfig where
  maxConcurrent : Nat
  timeout : Nat
  retryAttempts : Nat
deriving DecidableEq, Repr

/-- Agent status, embedding the union type of `Agent.status`. -/
inductive AgentStatus where
  | idle
  | busy
  | error
deriving DecidableEq, Repr

/-- Embedding of the `Agent` interface (`src/types/agent.ts`). -/
structure Agent where
  id : String
  name : String
  status : AgentStatus
  currentTask : Option AgentTask
  capabilities : List String
deriving DecidableEq, Repr

/-- Association-list lookup, first match wins; embeds `Map.get`. -/
def alistLookup {κ α : Type} [DecidableEq κ] (k : κ) : List (κ × α) → Option α
  | [] => none
  | p :: rest => if p.1 = k then some p.2 else alistLookup k rest

/-- Update-in-place of the value at a key, embedding mutation of the
record a `Map` entry points at. Keys absent from the list are unchanged. -/
def alistSet {κ α : Type} [DecidableEq κ] (k : κ) (v : α) (l : List (κ × α)) :
    List (κ × α) :=
  l.map (fun p => if p.1 = k then (k, v) else p)

/-- The Result Store `this.taskResults : Map<string, AgentResult>`,
embedded as an association list; `Map.set` is modelled as prepending,
so that `alistLookup` sees the newest binding (upsert semantics). -/
def Store : Type := List (String × AgentResult)

/-- Embedding of `getTaskResult` (src/core/agent.ts lines 192 to 194):
a plain lookup in the Result Store. -/
def getTaskResult (store : Store) (taskId : String) : Option AgentResult :=
  alistLookup taskId store

/-- One prerequisite check of `waitForDependencies`
(src/core/agent.ts lines 173 to 176): the prerequisite id must be
present in the Result Store with status success. -/
def depSuccess (store : Store) (depId : String) : Bool :=
  match alistLookup depId store with
  | some r => decide (r.status = ResultStatus.success)
  | none => false

/-- The `allComplete` check of `waitForDependencies`: `every`
prerequisite id maps to a success outcome. -/
def allComplete (store : Store) (deps : List String) : Bool :=
  deps.all (depSuccess store)

/-- The message of the error thrown by `waitForDependencies` on timeout
(src/core/agent.ts line 185). -/
def depTimeoutMsg : String :=
  "Dependency timeout: Some dependencies did not complete in time"

/-- The polling loop of `waitForDependencies` (src/core/agent.ts lines
172 to 183), with discrete idealized time: the k-th check happens at
elapsed time 100 * k and sees the store `storeAt k`. The source loop
`while (Date.now() - startTime < maxWaitTime)` performs a check exactly
for those k with 100 * k < timeout, so the countdown argument is the
number of checks remaining; on success it returns the elapsed time, on
timeout it returns the error message together with the elapsed time at
which the loop exited. -/
def waitGo (storeAt : Nat → Store) (deps : List String) (k : Nat) :
    Nat → Except (String × Nat) Nat
  | 0 => .error (depTimeoutMsg, 100 * k)
  | n + 1 =>
    if allComplete (storeAt k) deps then .ok (100 * k)
    else waitGo storeAt deps (k + 1) n

/-- Embedding of `waitForDependencies` (src/core/agent.ts lines 167 to
186): the number of checks performed before the while condition fails is
the number of k with 100 * k < timeout, that is ceil(timeout / 100). -/
def waitForDependencies (storeAt : Nat → Store) (deps : List String)
    (timeout : Nat) : Except (String × Nat) Nat :=
  waitGo storeAt deps 0 ((timeout + 99) / 100)

/-- Embedding of `getSystemPrompt` (src/core/agent.ts lines 111 to 120). -/
def getSystemPrompt (taskType : TaskType) : String :=
  match taskType with
  | .codeEdit => "You are a code editing agent. Analyze the request and provide precise file edits in JSON format."
  | .search => "You are a code search agent. Find relevant code patterns and return structured results."
  | .git => "You are a git operations agent. Execute git commands and manage repository operations."
  | .analyze => "You are a code analysis agent. Review code quality, patterns, and provide insights."
  | .custom => "You are a general-purpose agent. Follow the task instructions carefully."

/-- Embedding of `getUserPrompt` (src/core/agent.ts lines 122 to 124);
the opaque input payload stands for its own JSON serialization. -/
def getUserPrompt (task : AgentTask) : String :=
  "Task: " ++ task.description ++ "\n\nInput:\n" ++ task.input

/-- Environment for one task under execution: the external AI
collaborator and the `JSON.parse` builtin.

`chat sys usr n` is the behavior of the n-th invocation (0-indexed) of
the task body for this task: `Except.error e` embeds the AI call
throwing an error with message `e`, `Except.ok content` embeds a
response object with that `content` string. `jsonOk content` says
whether `JSON.parse content` succeeds; the parsed value itself is kept
abstract. -/
structure TaskEnv where
  chat : String → String → Nat → Except String String
  jsonOk : String → Bool

/-- Embedding of `parseTaskResult` (src/core/agent.ts lines 126 to 132):
`JSON.parse` inside try/catch; on a parse error the content is wrapped
as the object `\x7b raw: content \x7d`. This function never fails. The
`taskType` parameter is accepted and ignored exactly as in the source. -/
def parseTaskResult (jsonOk : String → Bool) (_taskType : TaskType)
    (content : String) : Output :=
  if jsonOk content then Output.parsed content else Output.raw content

/-- Embedding of `processTask` (src/core/agent.ts lines 99 to 109): call
the AI collaborator with the system and user prompts, then parse the
response content. The invocation counter `k` is threaded and always
incremented: every entry into `processTask` is one body invocation,
whether the AI call succeeds or throws. -/
def processTask (env : TaskEnv) (task : AgentTask) (k : Nat) :
    Except String Output × Nat :=
  match env.chat (getSystemPrompt task.type) (getUserPrompt task) k with
  | .error e => (.error e, k + 1)
  | .ok content => (.ok (parseTaskResult env.jsonOk task.type content), k + 1)

/-- The success outcome built by `executeTask` (src/core/agent.ts lines
64 to 71) and by `retryTask` (lines 139 to 144, with duration 0). -/
def successResult (task : AgentTask) (out : Output) (duration : Nat) :
    AgentResult :=
  { taskId := task.id, status := .success, output := out, error := none,
    metrics := { duration := duration, tokensUsed := none, filesModified := none } }

/-- The failure outcome built by `executeTask` (src/core/agent.ts lines
79 to 87) and by `retryTask` (lines 147 to 153 and 158 to 164, with
duration 0): output `null` and the error message recorded. -/
def failureResult (task : AgentTask) (e : String) (duration : Nat) :
    AgentResult :=
  { taskId := task.id, status := .failure, output := Output.null, error := some e,
    metrics := { duration := duration, tokensUsed := none, filesModified := none } }

/-- The retry loop of `retryTask` (src/core/agent.ts lines 135 to 156),
written with a countdown of remaining loop iterations: at entry the
countdown equals `retryAttempts - attempt + 1`, so the countdown
reaching 1 corresponds to the source condition
`attempt === this.config.retryAttempts`. Each iteration first sleeps
1000 * attempt milliseconds (the recorded sleep list) and then invokes
the body once. The countdown-0 base case embeds the fallthrough return
after the loop (lines 158 to 164), reachable only when
`retryAttempts = 0`, which returns the original error. Returns the
outcome, the new invocation counter and the list of back-off sleeps. -/
def retryGo (env : TaskEnv) (task : AgentTask) (origErr : String)
    (attempt k : Nat) : Nat → AgentResult × Nat × List Nat
  | 0 => (failureResult task origErr 0, k, [])
  | n + 1 =>
    match processTask env task k with
    | (.ok out, k2) => (successResult task out 0, k2, [1000 * attempt])
    | (.error e, k2) =>
      if n = 0 then (failureResult task e 0, k2, [1000 * attempt])
      else
        let rest := retryGo env task origErr (attempt + 1) k2 n
        (rest.1, rest.2.1, 1000 * attempt :: rest.2.2)

/-- Embedding of `retryTask` (src/core/agent.ts lines 134 to 165):
attempts are numbered from 1 up to `config.retryAttempts`. -/
def retryTask (cfg : AgentConfig) (env : TaskEnv) (task : AgentTask)
    (origErr : String) (k : Nat) : AgentResult × Nat × List Nat :=
  retryGo env task origErr 1 k cfg.retryAttempts

/-- The guard `task.retryOnFailure && this.config.retryAttempts > 0`
(src/core/agent.ts line 75); `retryOnFailure` is an optional boolean and
only the value `true` is truthy. -/
def retryRequested (cfg : AgentConfig) (task : AgentTask) : Bool :=
  (task.retryOnFailure == some true) && decide (0 < cfg.retryAttempts)

/-- The observable effect of one `executeTask` call: the returned
outcome, the number of body invocations performed, the elapsed time
spent in the dependency wait, and the back-off sleeps of the retry
loop. -/
structure ExecOutcome where
  result : AgentResult
  invocations : Nat
  depElapsed : Nat
  retrySleeps : List Nat
deriving DecidableEq, Repr

/-- The try-block body of `executeTask` after the dependency wait
succeeded (src/core/agent.ts lines 61 to 71) together with its catch
clause for a body error (lines 72 to 88): invoke the body once; on
success build the success outcome with the measured duration; on a
thrown error apply `retryTask` when `task.retryOnFailure` is truthy and
`config.retryAttempts > 0`, otherwise build the failure outcome. -/
def runBodyPhase (cfg : AgentConfig) (env : TaskEnv) (task : AgentTask)
    (elapsed : Nat) : ExecOutcome :=
  match processTask env task 0 with
  | (.ok out, k1) =>
    { result := successResult task out elapsed, invocations := k1,
      depElapsed := elapsed, retrySleeps := [] }
  | (.error e, k1) =>
    if retryRequested cfg task then
      let r := retryTask cfg env task e k1
      { result := r.1, invocations := r.2.1, depElapsed := elapsed,
        retrySleeps := r.2.2 }
    else
      { result := failureResult task e elapsed, invocations := k1,
        depElapsed := elapsed, retrySleeps := [] }

/-- Embedding of `executeTask` (src/core/agent.ts lines 53 to 89).
The source guard `if (task.dependencies)` is JavaScript truthiness: an
absent list skips the wait entirely, while a present list (even the
empty array) enters `waitForDependencies`. A dependency-timeout error
is caught by the same catch clause as a body error, so it too is routed
into `retryTask` when retry is requested; otherwise it becomes the
failure outcome, with zero body invocations. Note that `executeTask`
contains no write to the Result Store: the only `taskResults.set` in the
source is inside `assignTask` (line 46). -/
def executeTask (cfg : AgentConfig) (env : TaskEnv) (storeAt : Nat → Store)
    (task : AgentTask) : ExecOutcome :=
  match task.dependencies with
  | none => runBodyPhase cfg env task 0
  | some deps =>
    match waitForDependencies storeAt deps cfg.timeout with
    | .ok e => runBodyPhase cfg env task e
    | .error (msg, e) =>
      if retryRequested cfg task then
        let r := retryTask cfg env task msg 0
        { result := r.1, invocations := r.2.1, depElapsed := e,
          retrySleeps := r.2.2 }
      else
        { result := failureResult task msg e, invocations := 0,
          depElapsed := e, retrySleeps := [] }

/-- Embedding of `executeParallel` (src/core/agent.ts lines 91 to 97):
every task is submitted to the queue and `Promise.all` collects the
results in submission order, independent of completion order; the final
`filter` drops `undefined` results, and since `executeTask` always
resolves with a result, its predicate is identically true. Each task
runs against its own environment and its own time-indexed view of the
shared store (concurrency abstraction); no store is returned because
neither `executeParallel` nor `executeTask` writes the Result Store. -/
def executeParallel (cfg : AgentConfig) (envOf : String → TaskEnv)
    (storeAtOf : String → Nat → Store) (tasks : List AgentTask) :
    List AgentResult :=
  (tasks.map (fun t => (executeTask cfg (envOf t.id) (storeAtOf t.id) t).result)).filter
    (fun _ => true)

/-- The Result Store as left by a completed `executeParallel` call:
the source of `executeParallel` and `executeTask` (src/core/agent.ts
lines 53 to 97) contains no write to `this.taskResults` (the only write
in the class is in `assignTask`, line 46), so the store after the call
is exactly the store before it. -/
def executeParallelStore (store : Store) (_tasks : List AgentTask) : Store :=
  store

/-!
The Agent Registry. JavaScript `Map<string, Agent>` entries hold
references to mutable `Agent` objects, and `getStatus` copies only the
map (`new Map(this.agents)`, src/core/agent.ts line 189): the copied map
shares the `Agent` objects with the registry. To make this sharing
expressible, the registry is embedded with an explicit heap: the map
sends an agent id to a reference (a natural number), and the heap sends
a reference to the current `Agent` record. Field mutation updates the
heap at the reference, so it is visible through every map holding that
reference.
-/

/-- Registry state: the id-to-reference map `this.agents`, the object
heap, and the next fresh reference. -/
structure RegState where
  agents : List (String × Nat)
  heap : List (Nat × Agent)
  nextRef : Nat
deriving Repr

/-- The empty registry, the state at orchestrator construction. -/
def RegState.init : RegState :=
  { agents := [], heap := [], nextRef := 0 }

/-- Embedding of `createAgent` (src/core/agent.ts lines 24 to 33): build
an agent record with status idle and no current task, allocate it on the
heap, and store it in the map. The generated unique id (built in the
source from the clock and a random suffix) is supplied as `freshId`. -/
def createAgent (st : RegState) (freshId name : String)
    (capabilities : List String) : RegState :=
  let agent : Agent :=
    { id := freshId, name := name, status := .idle, currentTask := none,
      capabilities := capabilities }
  { agents := (freshId, st.nextRef) :: st.agents,
    heap := (st.nextRef, agent) :: st.heap,
    nextRef := st.nextRef + 1 }

/-- The acquisition step of `assignTask` (src/core/agent.ts lines 41 and
42): mutate the agent object so that `currentTask` is the task and
`status` is busy. In the source the two assignments are adjacent with no
await between them, so they form one atomic step. -/
def acquireAgent (st : RegState) (ref : Nat) (task : AgentTask) : RegState :=
  match alistLookup ref st.heap with
  | some a =>
    { st with heap := alistSet ref { a with status := .busy, currentTask := some task } st.heap }
  | none => st

/-- The release step of `assignTask` (src/core/agent.ts lines 47 to 50,
the `finally` clause): mutate the agent object so that `currentTask` is
cleared and `status` is idle. Runs whether the task body succeeded,
failed or raised. -/
def releaseAgent (st : RegState) (ref : Nat) : RegState :=
  match alistLookup ref st.heap with
  | some a =>
    { st with heap := alistSet ref { a with status := .idle, currentTask := none } st.heap }
  | none => st

/-- Embedding of `assignTask` (src/core/agent.ts lines 35 to 51): throw
when the agent id is unknown; otherwise acquire the agent, run
`executeTask`, record the outcome in the Result Store (line 46, the only
store write in the class), and release the agent in the `finally`
clause. `executeTask` is total in the embedding (every task-level
failure is returned as data), so the store write always happens and the
release always follows it. -/
def assignTask (cfg : AgentConfig) (env : TaskEnv) (storeAt : Nat → Store)
    (st : RegState) (store : Store) (agentId : String) (task : AgentTask) :
    Except String (RegState × Store) :=
  match alistLookup agentId st.agents with
  | none => .error ("Agent " ++ agentId ++ " not found")
  | some ref =>
    let st1 := acquireAgent st ref task
    let out := executeTask cfg env storeAt task
    let store1 : Store := (task.id, out.result) :: store
    let st2 := releaseAgent st1 ref
    .ok (st2, store1)

/-- Embedding of `getStatus` (src/core/agent.ts lines 188 to 190):
`new Map(this.agents)` copies the map entries, that is the id-to-
reference associations; the `Agent` objects behind the references are
shared, not copied. -/
def getStatus (st : RegState) : List (String × Nat) :=
  st.agents

/-- What a caller sees when looking an agent id up through a snapshot
returned by `getStatus`: follow the reference stored in the snapshot
into the current heap. -/
def observeSnapshot (snap : List (String × Nat)) (heap : List (Nat × Agent))
    (agentId : String) : Option Agent :=
  match alistLookup agentId snap with
  | some ref => alistLookup ref heap
  | none => none

/-- One observable registry transition: an agent creation, or the
acquisition or release half of an `assignTask` call (the two halves are
separated by the await of `executeTask`, so intermediate states are
observable to concurrent `getStatus` callers). Acquisition and release
only happen through references found in the map, as `assignTask` looks
the agent up first. -/
inductive RegStep : RegState → RegState → Prop where
  | create (freshId name : String) (caps : List String) (st : RegState) :
      RegStep st (createAgent st freshId name caps)
  | acquire (agentId : String) (ref : Nat) (task : AgentTask) (st : RegState) :
      alistLookup agentId st.agents = some ref →
      RegStep st (acquireAgent st ref task)
  | release (agentId : String) (ref : Nat) (st : RegState) :
      alistLookup agentId st.agents = some ref →
      RegStep st (releaseAgent st ref)

/-- Registry states reachable from orchestrator construction. -/
inductive RegReachable : RegState → Prop where
  | init : RegReachable RegState.init
  | step {st st' : RegState} : RegReachable st → RegStep st st' →
      RegReachable st'

/-- The per-agent invariant claimed by the spec: status is busy exactly
when a current task is recorded, and the error status never occurs. -/
def agentInv (a : Agent) : Prop :=
  (a.status = .busy ↔ a.currentTask ≠ none) ∧ a.status ≠ .error

/-- The registry invariant: every heap object satisfies `agentInv`, and
every allocated reference is below `nextRef` (references are fresh). -/
def RegInv (st : RegState) : Prop :=
  (∀ p ∈ st.heap, agentInv p.2) ∧
  (∀ p ∈ st.heap, p.1 < st.nextRef) ∧
  (∀ q ∈ st.agents, q.2 < st.nextRef)

/-- Status transitions allowed by the spec for a single agent:
unchanged, idle to busy, or busy to idle. -/
def okTransition (s s' : AgentStatus) : Prop :=
  s' = s ∨ (s = .idle ∧ s' = .busy) ∨ (s = .busy ∧ s' = .idle)

/-!
The bounded-concurrency pool. `executeParallel` submits its tasks to
`this.taskQueue`, a `PQueue` constructed with
`concurrency = config.maxConcurrent` (src/core/agent.ts line 21); the
queue implementation is the external p-queue dependency, whose source is
not in the repository, so its dispatch discipline is modelled from the
spec. Direct calls to `executeTask` (line 53), including those made by
`assignTask` (line 45), run the task body immediately without passing
through the queue: this is visible in the source, which contains no
`taskQueue.add` outside `executeParallel`.
-/

/-- Counts of task bodies in the pool model: tasks submitted to the
queue and not yet started, bodies started by the queue and still
running, and bodies started by a direct `executeTask` call and still
running. -/
structure PoolState where
  pending : Nat
  queueRunning : Nat
  directRunning : Nat
deriving DecidableEq, Repr

/-- The number of task bodies executing at an instant. -/
def inFlight (s : PoolState) : Nat :=
  s.queueRunning + s.directRunning

/-- One scheduling transition of the pool model, for a configured bound
`c = config.maxConcurrent`.

`dispatch` is modelled from the spec: the bounded-concurrency pool
(p-queue with `concurrency = c`, an external dependency not present in
the repository) starts a queued task only while fewer than `c` of its
tasks are running. `submit` is `executeParallel` adding a task to the
queue; `directStart` is a direct `executeTask` call, which the source
runs without any queue involvement and therefore without any guard. -/
inductive PoolStep (c : Nat) : PoolState → PoolState → Prop where
  | submit (s : PoolState) :
      PoolStep c s { s with pending := s.pending + 1 }
  | dispatch (s : PoolState) :
      0 < s.pending → s.queueRunning < c →
      PoolStep c s { s with pending := s.pending - 1,
                            queueRunning := s.queueRunning + 1 }
  | finishQueued (s : PoolState) :
      0 < s.queueRunning →
      PoolStep c s { s with queueRunning := s.queueRunning - 1 }
  | directStart (s : PoolState) :
      PoolStep c s { s with directRunning := s.directRunning + 1 }
  | directFinish (s : PoolState) :
      0 < s.directRunning →
      PoolStep c s { s with directRunning := s.directRunning - 1 }

/-- Pool states reachable in a run that starts with no task in flight. -/
inductive PoolReachable (c : Nat) : PoolState → Prop where
  | init : PoolReachable c { pending := 0, queueRunning := 0, directRunning := 0 }
  | step {s s' : PoolState} : PoolReachable c s → PoolStep c s s' →
      PoolReachable c s'

/-!
Concrete inputs used by the counterexamples and witnesses below.
-/

/-- A configuration with bound 3, dependency-wait timeout 200 ms and no
retry attempts. -/
def cfg1 : AgentConfig := { maxConcurrent := 3, timeout := 200, retryAttempts := 0 }

/-- A configuration with timeout 100 ms and one retry attempt. -/
def cfg2 : AgentConfig := { maxConcurrent := 3, timeout := 100, retryAttempts := 1 }

/-- A configuration with three retry attempts, matching the spec
scenario for the retry policy. -/
def cfg3 : AgentConfig := { maxConcurrent := 3, timeout := 100, retryAttempts := 3 }

/-- A configuration whose dependency-wait timeout is zero. -/
def cfg0 : AgentConfig := { maxConcurrent := 3, timeout := 0, retryAttempts := 0 }

/-- A task with no prerequisites and no retry preference. -/
def t1c : AgentTask :=
  { id := "t1", type := .custom, description := "x", input := "", priority := 1,
    dependencies := none, timeout := none, retryOnFailure := none }

/-- A task depending on t1, no retry preference. -/
def t2c : AgentTask :=
  { id := "t2", type := .custom, description := "y", input := "", priority := 1,
    dependencies := some ["t1"], timeout := none, retryOnFailure := none }

/-- A task depending on an id never recorded, with retry opted in. -/
def t2x : AgentTask := { t2c with dependencies := some ["missing"], retryOnFailure := some true }

/-- A task with no prerequisites and retry opted in. -/
def t3c : AgentTask := { t1c with retryOnFailure := some true }

/-- A task whose prerequisite list is present but empty. -/
def t10 : AgentTask := { t1c with dependencies := some [] }

/-- An environment whose AI collaborator always answers with the content
"ok", which does not parse as JSON. -/
def envOk : TaskEnv := { chat := fun _ _ _ => .ok "ok", jsonOk := fun _ => false }

/-- An environment whose AI collaborator throws on every invocation,
with a distinct message per invocation index. -/
def envErr : TaskEnv :=
  { chat := fun _ _ k => .error ("e" ++ toString k), jsonOk := fun _ => true }

/-- The constantly empty time-indexed Result Store: nothing is ever
recorded while the task under scrutiny polls. -/
def storeEmpty : Nat → Store := fun _ => []

/-- A failure outcome for task id a, used as a permanently failed
prerequisite. -/
def failedOutcome : AgentResult :=
  { taskId := "a", status := .failure, output := .null, error := some "boom",
    metrics := { duration := 0, tokensUsed := none, filesModified := none } }

/-- A time-indexed store in which prerequisite a is recorded as a
failure at every poll and never overwritten. -/
def storeFail : Nat → Store := fun _ => [("a", failedOutcome)]

/-- The registry after creating one agent named Reviewer. -/
def regW : RegState := createAgent RegState.init "agent-1" "Reviewer" ["review"]

/-- The agent record held by `regW` at reference 0. -/
def agentRecW : Agent :=
  { id := "agent-1", name := "Reviewer", status := .idle, currentTask := none,
    capabilities := ["review"] }

/-- A task used for assignment in the registry examples. -/
def taskW : AgentTask :=
  { id := "w1", type := .analyze, description := "x", input := "", priority := 1,
    dependencies := none, timeout := none, retryOnFailure := none }

/-- The per-task environment family in which every task gets `envOk`. -/
def envOfOk : String → TaskEnv := fun _ => envOk

/-- The per-task store family in which every task sees the empty store
at every poll: the batch starts from an empty Result Store, and since
`executeTask` never writes the store, it stays empty throughout. -/
def storeOfEmpty : String → Nat → Store := fun _ _ => []

/-- The outcome of running the no-prerequisite task under `envOk`. -/
def resultW : AgentResult := (executeTask cfg1 envOk (storeOfEmpty "t1") t1c).result

/-!
Helper lemmas about association lists, the polling loop, the retry loop
and the execution functions. These are shared by several claims.
-/

theorem alistLookup_mem {κ α : Type} [DecidableEq κ] {k : κ} {v : α} :
    ∀ {l : List (κ × α)}, alistLookup k l = some v → (k, v) ∈ l := by
  intro l
  induction l with
  | nil => intro h; simp [alistLookup] at h
  | cons p rest ih =>
    intro h
    obtain ⟨a, b⟩ := p
    by_cases hp : a = k
    · simp [alistLookup, hp] at h
      subst hp
      subst h
      exact List.mem_cons_self _ _
    · simp [alistLookup, hp] at h
      exact List.mem_cons_of_mem _ (ih h)

theorem alistLookup_alistSet {κ α : Type} [DecidableEq κ] (k : κ) (v : α) :
    ∀ l : List (κ × α),
      alistLookup k (alistSet k v l) = (alistLookup k l).map (fun _ => v) := by
  intro l
  induction l with
  | nil => rfl
  | cons p rest ih =>
    by_cases hp : p.1 = k
    · simp [alistSet, alistLookup, hp]
    · simp [alistSet, alistLookup, hp]
      simpa [alistSet] using ih

theorem alistLookup_alistSet_some {κ α : Type} [DecidableEq κ] {k : κ}
    {v w : α} {l : List (κ × α)} (h : alistLookup k l = some w) :
    alistLookup k (alistSet k v l) = some v := by
  rw [alistLookup_alistSet, h]
  rfl

theorem alistLookup_alistSet_ne {κ α : Type} [DecidableEq κ] {k k' : κ} (v : α)
    (hne : k' ≠ k) :
    ∀ l : List (κ × α), alistLookup k' (alistSet k v l) = alistLookup k' l := by
  intro l
  induction l with
  | nil => rfl
  | cons p rest ih =>
    by_cases hp : p.1 = k
    · have : k ≠ k' := fun h => hne h.symm
      simp [alistSet, alistLookup, hp, this, hne]
      simpa [alistSet] using ih
    · by_cases hp' : p.1 = k'
      · simp [alistSet, alistLookup, hp, hp', hne]
      · simp [alistSet, alistLookup, hp, hp']
        simpa [alistSet] using ih

theorem mem_alistSet {κ α : Type} [DecidableEq κ] {k : κ} {v : α}
    {l : List (κ × α)} : ∀ p ∈ alistSet k v l, p = (k, v) ∨ p ∈ l := by
  intro p hp
  unfold alistSet at hp
  obtain ⟨q, hq, hfq⟩ := List.mem_map.mp hp
  by_cases hqk : q.1 = k
  · left; simp [hqk] at hfq; exact hfq.symm
  · right; simp [hqk] at hfq; exact hfq ▸ hq

theorem alistSet_keys {κ α : Type} [DecidableEq κ] {k : κ} {v : α}
    {l : List (κ × α)} : ∀ p ∈ alistSet k v l, ∃ q ∈ l, p.1 = q.1 := by
  intro p hp
  unfold alistSet at hp
  obtain ⟨q, hq, hfq⟩ := List.mem_map.mp hp
  refine ⟨q, hq, ?_⟩
  by_cases hqk : q.1 = k
  · simp [hqk] at hfq; rw [← hfq]; exact hqk.symm
  · simp [hqk] at hfq; rw [← hfq]

theorem allComplete_false_of_mem {store : Store} {deps : List String}
    {d : String} (hd : d ∈ deps) (h : depSuccess store d = false) :
    allComplete store deps = false := by
  unfold allComplete
  rw [List.all_eq_false]
  exact ⟨d, hd, by simp [h]⟩

theorem depSuccess_false_of_failure {store : Store} {d : String}
    {r : AgentResult} (hl : alistLookup d store = some r)
    (hs : r.status = ResultStatus.failure) : depSuccess store d = false := by
  unfold depSuccess
  rw [hl]
  simp [hs]

theorem waitGo_error {storeAt : Nat → Store} {deps : List String}
    (hall : ∀ n, allComplete (storeAt n) deps = false) :
    ∀ m k, waitGo storeAt deps k m = .error (depTimeoutMsg, 100 * (k + m)) := by
  intro m
  induction m with
  | zero => intro k; simp [waitGo]
  | succ n ih =>
    intro k
    have := ih (k + 1)
    simp only [waitGo, hall k, Bool.false_eq_true, if_false, this]
    have harith : 100 * (k + 1 + n) = 100 * (k + (n + 1)) := by omega
    rw [harith]

theorem timeout_le_elapsed (timeout : Nat) :
    timeout ≤ 100 * ((timeout + 99) / 100) := by
  omega

theorem retryGo_taskId (env : TaskEnv) (task : AgentTask) (origErr : String) :
    ∀ (n attempt k : Nat),
      (retryGo env task origErr attempt k n).1.taskId = task.id := by
  intro n
  induction n with
  | zero => intro attempt k; simp [retryGo, failureResult]
  | succ m ih =>
    intro attempt k
    rcases h : processTask env task k with ⟨exc, k2⟩
    cases exc with
    | ok out => simp [retryGo, h, successResult]
    | error e =>
      by_cases hm : m = 0
      · simp [retryGo, h, hm, failureResult]
      · simp [retryGo, h, hm, ih]

theorem retryGo_status (env : TaskEnv) (task : AgentTask) (origErr : String) :
    ∀ (n attempt k : Nat),
      (retryGo env task origErr attempt k n).1.status = ResultStatus.success ∨
      (retryGo env task origErr attempt k n).1.status = ResultStatus.failure := by
  intro n
  induction n with
  | zero => intro attempt k; right; simp [retryGo, failureResult]
  | succ m ih =>
    intro attempt k
    rcases h : processTask env task k with ⟨exc, k2⟩
    cases exc with
    | ok out => left; simp [retryGo, h, successResult]
    | error e =>
      by_cases hm : m = 0
      · right; simp [retryGo, h, hm, failureResult]
      · simp only [retryGo, h, hm, if_false]
        exact ih (attempt + 1) k2

theorem runBodyPhase_taskId (cfg : AgentConfig) (env : TaskEnv)
    (task : AgentTask) (elapsed : Nat) :
    (runBodyPhase cfg env task elapsed).result.taskId = task.id := by
  unfold runBodyPhase
  rcases h : processTask env task 0 with ⟨exc, k1⟩
  cases exc with
  | ok out => simp [successResult]
  | error e =>
    by_cases hr : retryRequested cfg task
    · simp [hr, retryTask, retryGo_taskId]
    · simp [hr, failureResult]

theorem runBodyPhase_status (cfg : AgentConfig) (env : TaskEnv)
    (task : AgentTask) (elapsed : Nat) :
    (runBodyPhase cfg env task elapsed).result.status = ResultStatus.success ∨
    (runBodyPhase cfg env task elapsed).result.status = ResultStatus.failure := by
  unfold runBodyPhase
  rcases h : processTask env task 0 with ⟨exc, k1⟩
  cases exc with
  | ok out => left; simp [successResult]
  | error e =>
    by_cases hr : retryRequested cfg task
    · simp only [hr, if_true]
      exact retryGo_status env task e cfg.retryAttempts 1 k1
    · right; simp [hr, failureResult]

theorem runBodyPhase_depElapsed (cfg : AgentConfig) (env : TaskEnv)
    (task : AgentTask) (elapsed : Nat) :
    (runBodyPhase cfg env task elapsed).depElapsed = elapsed := by
  unfold runBodyPhase
  rcases h : processTask env task 0 with ⟨exc, k1⟩
  cases exc with
  | ok out => simp
  | error e =>
    by_cases hr : retryRequested cfg task
    · simp [hr]
    · simp [hr]

theorem executeTask_taskId (cfg : AgentConfig) (env : TaskEnv)
    (storeAt : Nat → Store) (task : AgentTask) :
    (executeTask cfg env storeAt task).result.taskId = task.id := by
  unfold executeTask
  rcases hd : task.dependencies with _ | deps
  · exact runBodyPhase_taskId cfg env task 0
  · rcases hw : waitForDependencies storeAt deps cfg.timeout with ⟨msg, e⟩ | e
    · simp only [hw]
      by_cases hr : retryRequested cfg task
      · simp [hr, retryTask, retryGo_taskId]
      · simp [hr, failureResult]
    · simp only [hw]
      exact runBodyPhase_taskId cfg env task e

theorem executeTask_status (cfg : AgentConfig) (env : TaskEnv)
    (storeAt : Nat → Store) (task : AgentTask) :
    (executeTask cfg env storeAt task).result.status = ResultStatus.success ∨
    (executeTask cfg env storeAt task).result.status = ResultStatus.failure := by
  unfold executeTask
  rcases hd : task.dependencies with _ | deps
  · exact runBodyPhase_status cfg env task 0
  · rcases hw : waitForDependencies storeAt deps cfg.timeout with ⟨msg, e⟩ | e
    · simp only [hw]
      by_cases hr : retryRequested cfg task
      · simp only [hr, if_true]
        exact retryGo_status env task msg cfg.retryAttempts 1 0
      · right; simp [hr, failureResult]
    · simp only [hw]
      exact runBodyPhase_status cfg env task e

theorem executeParallel_eq_map (cfg : AgentConfig) (envOf : String → TaskEnv)
    (storeAtOf : String → Nat → Store) (tasks : List AgentTask) :
    executeParallel cfg envOf storeAtOf tasks =
      tasks.map (fun t => (executeTask cfg (envOf t.id) (storeAtOf t.id) t).result) := by
  unfold executeParallel
  induction tasks with
  | nil => rfl
  | cons t ts ih => simp [List.filter] at ih ⊢

/-!
The claims.
-/

/-- Claim C1. The claim states that `executeTask(t)` writes its outcome
to the Result Store, so that `getTaskResult(t.id)` afterwards returns
it, and that consequently a batch of two tasks `[t1, t2]` with `t2`
depending on `t1` submitted through `executeParallel` returns two
success outcomes. The source contradicts this: the only write to
`this.taskResults` in the class is in `assignTask` (src/core/agent.ts
line 46), so after `executeParallel` from an empty store the store is
still empty, `getTaskResult "t1"` returns nothing, and the dependency
wait of `t2` necessarily times out, making `t2` a failure. This theorem
evaluates the embedding at exactly that failing input. -/
theorem C1_executeTask_does_not_record :
    (executeParallel cfg1 envOfOk storeOfEmpty [t1c, t2c]).map
        (fun r => (r.taskId, r.status)) =
      [("t1", ResultStatus.success), ("t2", ResultStatus.failure)] ∧
    (executeParallel cfg1 envOfOk storeOfEmpty [t1c, t2c]).map
        (fun r => r.error) =
      [none, some depTimeoutMsg] ∧
    getTaskResult (executeParallelStore [] [t1c, t2c]) "t1" = none := by
  refine ⟨?_, ?_, ?_⟩ <;> decide

/-- Claim C4. For every input list of tasks, `executeParallel` returns
exactly as many outcomes as tasks, ordered identically to the input
(the i-th outcome carries the i-th task id), for every environment and
every store history (hence independent of completion order), and no
task-level failure escapes as a thrown exception: every returned
outcome has status success or failure. -/
theorem C4_parallel_order_and_no_escape :
    ∀ (cfg : AgentConfig) (envOf : String → TaskEnv)
      (storeAtOf : String → Nat → Store) (tasks : List AgentTask),
      (executeParallel cfg envOf storeAtOf tasks).length = tasks.length ∧
      (executeParallel cfg envOf storeAtOf tasks).map AgentResult.taskId =
        tasks.map AgentTask.id ∧
      ∀ r ∈ executeParallel cfg envOf storeAtOf tasks,
        r.status = ResultStatus.success ∨ r.status = ResultStatus.failure := by
  intro cfg envOf storeAtOf tasks
  refine ⟨?_, ?_, ?_⟩
  · rw [executeParallel_eq_map]
    simp
  · rw [executeParallel_eq_map, List.map_map]
    induction tasks with
    | nil => rfl
    | cons t ts ih => simp [Function.comp, executeTask_taskId, ih] at ih ⊢
  · intro r hr
    rw [executeParallel_eq_map] at hr
    obtain ⟨t, ht, rfl⟩ := List.mem_map.mp hr
    exact executeTask_status cfg (envOf t.id) (storeAtOf t.id) t

/-- Witness for C4 at a concrete one-task batch: the returned list has
one outcome, its task id matches, and the outcome of the task, which is
a member of the returned list, has status success or failure. -/
theorem C4_witness :
    (executeParallel cfg1 envOfOk storeOfEmpty [t1c]).length = 1 ∧
    (executeParallel cfg1 envOfOk storeOfEmpty [t1c]).map AgentResult.taskId =
      ["t1"] ∧
    (resultW.status = ResultStatus.success ∨
      resultW.status = ResultStatus.failure) :=
  ⟨(C4_parallel_order_and_no_escape cfg1 envOfOk storeOfEmpty [t1c]).1,
   (C4_parallel_order_and_no_escape cfg1 envOfOk storeOfEmpty [t1c]).2.1,
   (C4_parallel_order_and_no_escape cfg1 envOfOk storeOfEmpty [t1c]).2.2
     resultW (by decide)⟩

/-- Counterexample for claim C5. The claim asserts that the configured
concurrency bound holds for all tasks submitted through the execution
engine, single-task execution and batches alike. In the source only
`executeParallel` submits to the bounded queue; a direct `executeTask`
call (src/core/agent.ts line 53, also used by `assignTask` at line 45)
runs the body immediately with no queue involvement. With bound 1, two
overlapping direct calls reach a state with two bodies in flight. -/
theorem C5_counterexample :
    PoolReachable 1 { pending := 0, queueRunning := 0, directRunning := 2 } ∧
    1 < inFlight { pending := 0, queueRunning := 0, directRunning := 2 } := by
  constructor
  · exact PoolReachable.step
      (PoolReachable.step PoolReachable.init (PoolStep.directStart _))
      (PoolStep.directStart _)
  · decide

/-- Claim C5, amended: the concurrency bound governs exactly the bodies
started by the queue, that is the tasks submitted through
`executeParallel`; in every reachable pool state the number of
queue-started bodies in flight is at most the configured bound, while
directly executed tasks bypass the queue and are not counted. -/
theorem C5_queue_bound :
    ∀ (c : Nat) (s : PoolState), PoolReachable c s → s.queueRunning ≤ c := by
  intro c s h
  induction h with
  | init => exact Nat.zero_le c
  | @step s1 s2 hr hst ih =>
    cases hst with
    | submit => simpa using ih
    | dispatch hp hq => exact hq
    | finishQueued hq => exact le_trans (Nat.sub_le _ _) ih
    | directStart => simpa using ih
    | directFinish hdr => simpa using ih

/-- Witness for C5 at the initial pool state with bound 2. -/
theorem C5_witness :
    PoolReachable 2 { pending := 0, queueRunning := 0, directRunning := 0 } ∧
    PoolState.queueRunning { pending := 0, queueRunning := 0, directRunning := 0 } ≤ 2 :=
  ⟨PoolReachable.init, C5_queue_bound 2 _ PoolReachable.init⟩

/-- Counterexample for claim C6. The claim asserts that a successful AI
call whose response content is not valid JSON counts as a failed
attempt, so that a task that did not opt into retry returns a failure
outcome. In the source `parseTaskResult` catches the `JSON.parse` error
and returns the wrapper object with the raw content (src/core/agent.ts
lines 126 to 132), so the attempt succeeds: at a concrete input whose
content does not parse and with retry not opted in, `executeTask`
returns a success outcome carrying the raw wrapper. -/
theorem C6_counterexample :
    (executeTask cfg1 envOk storeEmpty t1c).result.status = ResultStatus.success ∧
    (executeTask cfg1 envOk storeEmpty t1c).result.output = Output.raw "ok" ∧
    t1c.retryOnFailure = none := by
  refine ⟨?_, ?_, ?_⟩ <;> decide

/-- Claim C6, amended: result parsing never fails an attempt. For every
task whose AI collaborator call succeeds, the attempt succeeds even when
the response content is not valid JSON: `parseTaskResult` swallows the
parse error and the outcome is a success carrying the raw-content
wrapper. Only a throwing AI call counts as a failed attempt subject to
the retry policy. -/
theorem C6_parse_failure_is_not_an_error :
    ∀ (cfg : AgentConfig) (env : TaskEnv) (storeAt : Nat → Store)
      (task : AgentTask) (content : String),
      task.dependencies = none →
      env.chat (getSystemPrompt task.type) (getUserPrompt task) 0 = .ok content →
      env.jsonOk content = false →
      (executeTask cfg env storeAt task).result =
        successResult task (Output.raw content) 0 ∧
      (executeTask cfg env storeAt task).invocations = 1 := by
  intro cfg env storeAt task content hd hchat hjson
  unfold executeTask
  rw [hd]
  unfold runBodyPhase
  simp [processTask, hchat, parseTaskResult, hjson]

/-- Witness for C6 at the concrete environment whose AI response is the
non-JSON string ok. -/
theorem C6_witness :
    (executeTask cfg1 envOk storeEmpty t1c).result =
      successResult t1c (Output.raw "ok") 0 ∧
    (executeTask cfg1 envOk storeEmpty t1c).invocations = 1 :=
  C6_parse_failure_is_not_an_error cfg1 envOk storeEmpty t1c "ok" rfl rfl rfl

/-- Counterexample for claim C10. The claim asserts that a task whose
prerequisite list is empty never blocks in the dependency resolver and
proceeds directly to its body, for every orchestrator configuration.
With a configured dependency-wait timeout of 0 the while condition of
`waitForDependencies` is false at entry, so even an empty prerequisite
list times out: `executeTask` returns a dependency-timeout failure and
the body is invoked zero times. -/
theorem C10_counterexample :
    (executeTask cfg0 envOk storeEmpty t10).result =
      failureResult t10 depTimeoutMsg 0 ∧
    (executeTask cfg0 envOk storeEmpty t10).invocations = 0 ∧
    t10.dependencies = some [] := by
  refine ⟨?_, ?_, ?_⟩ <;> decide

/-- Claim C10, amended: for every configuration whose dependency-wait
timeout is positive, a task with an empty prerequisite list resolves its
dependency wait immediately (the wait returns at elapsed time 0, with
zero sleep intervals) and `executeTask` behaves exactly as on a task
with no dependency list at all, proceeding directly to the body. With a
timeout of zero or less the wait instead fails immediately, as the
counterexample shows. -/
theorem C10_empty_prereqs_resolve_immediately :
    ∀ (cfg : AgentConfig) (env : TaskEnv) (storeAt : Nat → Store)
      (task : AgentTask),
      task.dependencies = some [] →
      0 < cfg.timeout →
      executeTask cfg env storeAt task = runBodyPhase cfg env task 0 ∧
      (executeTask cfg env storeAt task).depElapsed = 0 ∧
      waitForDependencies storeAt [] cfg.timeout = .ok 0 := by
  intro cfg env storeAt task hd ht
  have hN : ∃ m, (cfg.timeout + 99) / 100 = m + 1 := by
    have : 0 < (cfg.timeout + 99) / 100 := by omega
    exact ⟨(cfg.timeout + 99) / 100 - 1, by omega⟩
  obtain ⟨m, hm⟩ := hN
  have hwait : waitForDependencies storeAt [] cfg.timeout = .ok 0 := by
    unfold waitForDependencies
    rw [hm]
    simp [waitGo, allComplete]
  refine ⟨?_, ?_, hwait⟩
  · unfold executeTask
    rw [hd]
    simp only [hwait]
  · unfold executeTask
    rw [hd]
    simp only [hwait]
    exact runBodyPhase_depElapsed cfg env task 0

/-- Witness for C10 at a concrete task with an empty prerequisite list
and the timeout-200 configuration. -/
theorem C10_witness :
    executeTask cfg1 envOk storeEmpty t10 = runBodyPhase cfg1 envOk t10 0 ∧
    (executeTask cfg1 envOk storeEmpty t10).depElapsed = 0 ∧
    waitForDependencies storeEmpty [] cfg1.timeout = .ok 0 :=
  C10_empty_prereqs_resolve_immediately cfg1 envOk storeEmpty t10 rfl
    (by decide)

/-- Counterexample for claim C2. The claim asserts that a task whose
prerequisites never succeed within the timeout always returns a
dependency-timeout failure with its body never invoked, for every value
of `retryOnFailure` and every retry-attempt count. In the source the
dependency-timeout error is caught by the same catch clause as a body
error (src/core/agent.ts lines 72 to 77), so with `retryOnFailure` true
and a positive retry count, `retryTask` is entered and invokes the body
without re-checking dependencies. At this concrete input the
prerequisite is never recorded, yet the returned outcome has status
success and the body was invoked once. -/
theorem C2_counterexample :
    (executeTask cfg2 envOk storeEmpty t2x).result.status = ResultStatus.success ∧
    (executeTask cfg2 envOk storeEmpty t2x).invocations = 1 ∧
    t2x.dependencies = some ["missing"] ∧
    (∀ n, depSuccess (storeEmpty n) "missing" = false) := by
  refine ⟨by decide, by decide, by decide, fun n => rfl⟩

/-- Claim C2, amended: for every task with a prerequisite that never
reaches a success outcome at any poll, provided the task did not opt
into retry or the configured retry count is zero, `executeTask` returns
the dependency-timeout failure (with the elapsed wait as duration) and
the body is invoked zero times. When retry is opted in with a positive
retry count, the dependency-timeout error is instead routed into the
retry policy, which invokes the body, as the counterexample shows. -/
theorem C2_dep_timeout_skips_body_without_retry :
    ∀ (cfg : AgentConfig) (env : TaskEnv) (storeAt : Nat → Store)
      (task : AgentTask) (deps : List String) (d : String),
      task.dependencies = some deps →
      d ∈ deps →
      (∀ n, depSuccess (storeAt n) d = false) →
      retryRequested cfg task = false →
      (executeTask cfg env storeAt task).result =
        failureResult task depTimeoutMsg (100 * ((cfg.timeout + 99) / 100)) ∧
      (executeTask cfg env storeAt task).invocations = 0 := by
  intro cfg env storeAt task deps d hd hmem hnever hnoretry
  have hall : ∀ n, allComplete (storeAt n) deps = false := fun n =>
    allComplete_false_of_mem hmem (hnever n)
  have hwait : waitForDependencies storeAt deps cfg.timeout =
      .error (depTimeoutMsg, 100 * ((cfg.timeout + 99) / 100)) := by
    unfold waitForDependencies
    have := waitGo_error hall ((cfg.timeout + 99) / 100) 0
    simpa using this
  unfold executeTask
  rw [hd]
  simp [hwait, hnoretry]

/-- Witness for C2: the task depending on t1, which is never recorded
in the constantly empty store, with retry not requested. -/
theorem C2_witness :
    (executeTask cfg1 envOk storeEmpty t2c).result =
      failureResult t2c depTimeoutMsg 200 ∧
    (executeTask cfg1 envOk storeEmpty t2c).invocations = 0 :=
  C2_dep_timeout_skips_body_without_retry cfg1 envOk storeEmpty t2c ["t1"]
    "t1" rfl (by decide) (fun n => rfl) (by decide)

/-- Counterexample for claim C3. The claim asserts that a task whose
body always throws, with retry opted in and a configured retry count of
3, has its body invoked exactly 3 times. In the source `executeTask`
invokes the body once before entering `retryTask`, and `retryTask` then
invokes it `retryAttempts` more times (src/core/agent.ts lines 61 and
135), so at this concrete input the body runs 4 times, not 3. -/
theorem C3_counterexample :
    (executeTask cfg3 envErr storeEmpty t3c).invocations = 4 ∧
    ¬ (executeTask cfg3 envErr storeEmpty t3c).invocations = 3 ∧
    cfg3.retryAttempts = 3 ∧ t3c.retryOnFailure = some true := by
  refine ⟨?_, ?_, ?_, ?_⟩ <;> decide

/-- Claim C3, amended: with a configured retry count of 3 and retry
opted in, a body that throws on every invocation is invoked exactly 4
times (one initial attempt in `executeTask` plus 3 re-attempts in
`retryTask`), the retry loop sleeps 1000 * attemptNumber milliseconds
before each re-attempt (linear back-off: 1000, 2000, 3000), and exactly
one final failure outcome is returned, carrying the message of the last
underlying error (the one of the fourth invocation). -/
theorem C3_retry_runs_body_four_times :
    ∀ (cfg : AgentConfig) (env : TaskEnv) (storeAt : Nat → Store)
      (task : AgentTask) (msgs : Nat → String),
      cfg.retryAttempts = 3 →
      task.retryOnFailure = some true →
      task.dependencies = none →
      (∀ k, env.chat (getSystemPrompt task.type) (getUserPrompt task) k =
        .error (msgs k)) →
      (executeTask cfg env storeAt task).invocations = 4 ∧
      (executeTask cfg env storeAt task).retrySleeps = [1000, 2000, 3000] ∧
      (executeTask cfg env storeAt task).result = failureResult task (msgs 3) 0 := by
  intro cfg env storeAt task msgs hra hopt hd hchat
  have hreq : retryRequested cfg task = true := by
    simp [retryRequested, hopt, hra]
  unfold executeTask
  rw [hd]
  unfold runBodyPhase
  simp only [processTask, hchat 0]
  rw [hreq]
  unfold retryTask
  rw [hra]
  simp [retryGo, processTask, hchat 1, hchat 2, hchat 3]

/-- Witness for C3 at the concrete always-throwing environment. -/
theorem C3_witness :
    (executeTask cfg3 envErr storeEmpty t3c).invocations = 4 ∧
    (executeTask cfg3 envErr storeEmpty t3c).retrySleeps = [1000, 2000, 3000] ∧
    (executeTask cfg3 envErr storeEmpty t3c).result =
      failureResult t3c ("e" ++ toString 3) 0 :=
  C3_retry_runs_body_four_times cfg3 envErr storeEmpty t3c
    (fun k => "e" ++ toString k) rfl rfl rfl (fun _ => rfl)

/-- Claim C7. For every prerequisite list containing an id that at every
poll maps to an outcome with status failure (never overwritten), the
dependency wait never short-circuits: it never returns success, and it
terminates with the dependency-timeout error exactly when the timeout
window has elapsed (the elapsed time at the error is at least the
configured timeout). -/
theorem C7_failed_prereq_no_short_circuit :
    ∀ (storeAt : Nat → Store) (deps : List String) (timeout : Nat)
      (d : String),
      d ∈ deps →
      (∀ n, ∃ r, alistLookup d (storeAt n) = some r ∧
        r.status = ResultStatus.failure) →
      waitForDependencies storeAt deps timeout =
        .error (depTimeoutMsg, 100 * ((timeout + 99) / 100)) ∧
      timeout ≤ 100 * ((timeout + 99) / 100) := by
  intro storeAt deps timeout d hmem hfail
  have hds : ∀ n, depSuccess (storeAt n) d = false := by
    intro n
    obtain ⟨r, hl, hs⟩ := hfail n
    exact depSuccess_false_of_failure hl hs
  have hall : ∀ n, allComplete (storeAt n) deps = false := fun n =>
    allComplete_false_of_mem hmem (hds n)
  constructor
  · unfold waitForDependencies
    simpa using waitGo_error hall ((timeout + 99) / 100) 0
  · exact timeout_le_elapsed timeout

/-- Witness for C7: one prerequisite recorded as a permanent failure,
timeout 100, so the wait errors out at elapsed time 100. -/
theorem C7_witness :
    waitForDependencies storeFail ["a"] 100 =
      .error (depTimeoutMsg, 100 * ((100 + 99) / 100)) ∧
    100 ≤ 100 * ((100 + 99) / 100) :=
  C7_failed_prereq_no_short_circuit storeFail ["a"] 100 "a" (by decide)
    (fun n => ⟨failedOutcome, rfl, rfl⟩)

theorem regReachable_inv : ∀ st, RegReachable st → RegInv st := by
  intro st h
  induction h with
  | init =>
    refine ⟨?_, ?_, ?_⟩ <;> intro p hp <;> simp [RegState.init] at hp
  | @step st1 st2 hr hst ih =>
    obtain ⟨h1, h2, h3⟩ := ih
    cases hst with
    | create freshId name caps =>
      refine ⟨?_, ?_, ?_⟩
      · intro p hp
        simp only [createAgent, List.mem_cons] at hp
        rcases hp with rfl | hp'
        · simp [agentInv]
        · exact h1 p hp'
      · intro p hp
        simp only [createAgent, List.mem_cons] at hp
        rcases hp with rfl | hp'
        · simp [createAgent]
        · simp only [createAgent]
          exact Nat.lt_succ_of_lt (h2 p hp')
      · intro q hq
        simp only [createAgent, List.mem_cons] at hq
        rcases hq with rfl | hq'
        · simp [createAgent]
        · simp only [createAgent]
          exact Nat.lt_succ_of_lt (h3 q hq')
    | acquire agentId ref task hfound =>
      unfold acquireAgent
      cases hl : alistLookup ref st1.heap with
      | none => exact ⟨h1, h2, h3⟩
      | some a =>
        refine ⟨?_, ?_, h3⟩
        · intro p hp
          rcases mem_alistSet p hp with rfl | hp'
          · simp [agentInv]
          · exact h1 p hp'
        · intro p hp
          obtain ⟨q, hq, hpq⟩ := alistSet_keys p hp
          rw [hpq]
          exact h2 q hq
    | release agentId ref hfound =>
      unfold releaseAgent
      cases hl : alistLookup ref st1.heap with
      | none => exact ⟨h1, h2, h3⟩
      | some a =>
        refine ⟨?_, ?_, h3⟩
        · intro p hp
          rcases mem_alistSet p hp with rfl | hp'
          · simp [agentInv]
          · exact h1 p hp'
        · intro p hp
          obtain ⟨q, hq, hpq⟩ := alistSet_keys p hp
          rw [hpq]
          exact h2 q hq

theorem regStep_ok_transition :
    ∀ st st', RegInv st → RegStep st st' →
      ∀ ref a a', alistLookup ref st.heap = some a →
        alistLookup ref st'.heap = some a' →
        okTransition a.status a'.status := by
  intro st st' hinv hstep ref a a' ha ha'
  obtain ⟨h1, h2, h3⟩ := hinv
  cases hstep with
  | create freshId name caps =>
    have hlt : ref < st.nextRef := h2 (ref, a) (alistLookup_mem ha)
    have hne : st.nextRef ≠ ref := Nat.ne_of_gt hlt
    simp only [createAgent, alistLookup, hne, if_false] at ha'
    rw [ha] at ha'
    injection ha' with hEq
    left
    rw [hEq]
  | acquire agentId ref0 task hfound =>
    unfold acquireAgent at ha'
    cases hl : alistLookup ref0 st.heap with
    | none =>
      rw [hl] at ha'
      rw [ha] at ha'
      injection ha' with hEq
      left
      rw [hEq]
    | some b =>
      rw [hl] at ha'
      by_cases heq : ref = ref0
      · subst heq
        rw [alistLookup_alistSet_some ha] at ha'
        injection ha' with hEq
        rw [← hEq]
        have hab : a = b := by
          rw [ha] at hl
          injection hl
        have hinvb := h1 (ref, a) (alistLookup_mem ha)
        rcases hsa : a.status with _ | _ | _
        · right; left; exact ⟨rfl, rfl⟩
        · left; rfl
        · exact absurd hsa hinvb.2
      · rw [alistLookup_alistSet_ne _ heq] at ha'
        rw [ha] at ha'
        injection ha' with hEq
        left
        rw [hEq]
  | release agentId ref0 hfound =>
    unfold releaseAgent at ha'
    cases hl : alistLookup ref0 st.heap with
    | none =>
      rw [hl] at ha'
      rw [ha] at ha'
      injection ha' with hEq
      left
      rw [hEq]
    | some b =>
      rw [hl] at ha'
      by_cases heq : ref = ref0
      · subst heq
        rw [alistLookup_alistSet_some ha] at ha'
        injection ha' with hEq
        rw [← hEq]
        have hinvb := h1 (ref, a) (alistLookup_mem ha)
        rcases hsa : a.status with _ | _ | _
        · left; rfl
        · right; right; exact ⟨rfl, rfl⟩
        · exact absurd hsa hinvb.2
      · rw [alistLookup_alistSet_ne _ heq] at ha'
        rw [ha] at ha'
        injection ha' with hEq
        left
        rw [hEq]

theorem assignTask_releases :
    ∀ (cfg : AgentConfig) (env : TaskEnv) (storeAt : Nat → Store)
      (st : RegState) (store : Store) (agentId : String) (task : AgentTask)
      (ref : Nat) (a : Agent),
      alistLookup agentId st.agents = some ref →
      alistLookup ref st.heap = some a →
      ∃ st2 store1,
        assignTask cfg env storeAt st store agentId task = .ok (st2, store1) ∧
        alistLookup ref st2.heap =
          some { a with status := AgentStatus.idle, currentTask := none } ∧
        getTaskResult store1 task.id =
          some (executeTask cfg env storeAt task).result := by
  intro cfg env storeAt st store agentId task ref a hfound ha
  have hb : alistLookup ref (acquireAgent st ref task).heap =
      some { a with status := AgentStatus.busy, currentTask := some task } := by
    unfold acquireAgent
    rw [ha]
    exact alistLookup_alistSet_some ha
  have hrel : alistLookup ref (releaseAgent (acquireAgent st ref task) ref).heap =
      some { a with status := AgentStatus.idle, currentTask := none } := by
    unfold releaseAgent
    rw [hb]
    exact alistLookup_alistSet_some hb
  refine ⟨releaseAgent (acquireAgent st ref task) ref,
    (task.id, (executeTask cfg env storeAt task).result) :: store, ?_, hrel, ?_⟩
  · unfold assignTask
    rw [hfound]
  · unfold getTaskResult alistLookup
    simp

/-- Claim C8. Every reachable registry state satisfies the agent
invariant: an agent is busy exactly when it has a current task recorded,
and the error status never occurs (the source never assigns it, so the
transition to error allowed by the spec is vacuous). Every observable
registry step changes an agent status only as idle to busy, busy to
idle, or not at all. And every completed `assignTask` call on a known
agent returns ok and leaves that agent idle with its current task
cleared — the release happens in a `finally` clause, hence regardless of
the outcome of the task body — while recording the outcome in the
Result Store. -/
theorem C8_registry_lifecycle :
    (∀ st, RegReachable st → ∀ p ∈ st.heap, agentInv p.2) ∧
    (∀ st st', RegReachable st → RegStep st st' →
      ∀ ref a a', alistLookup ref st.heap = some a →
        alistLookup ref st'.heap = some a' →
        okTransition a.status a'.status) ∧
    (∀ (cfg : AgentConfig) (env : TaskEnv) (storeAt : Nat → Store)
       (st : RegState) (store : Store) (agentId : String) (task : AgentTask)
       (ref : Nat) (a : Agent),
      alistLookup agentId st.agents = some ref →
      alistLookup ref st.heap = some a →
      ∃ st2 store1,
        assignTask cfg env storeAt st store agentId task = .ok (st2, store1) ∧
        alistLookup ref st2.heap =
          some { a with status := AgentStatus.idle, currentTask := none } ∧
        getTaskResult store1 task.id =
          some (executeTask cfg env storeAt task).result) :=
  ⟨fun st h => (regReachable_inv st h).1,
   fun st st' hr hs => regStep_ok_transition st st' (regReachable_inv st hr) hs,
   assignTask_releases⟩

/-- Witness for C8 at the one-agent registry: the created agent
satisfies the invariant, acquiring it is an idle-to-busy transition,
and a full `assignTask` call leaves it idle with no current task while
recording the task outcome. -/
theorem C8_witness :
    agentInv agentRecW ∧
    okTransition AgentStatus.idle AgentStatus.busy ∧
    (∃ st2 store1,
      assignTask cfg1 envOk storeEmpty regW [] "agent-1" taskW = .ok (st2, store1) ∧
      alistLookup 0 st2.heap = some agentRecW ∧
      getTaskResult store1 taskW.id =
        some (executeTask cfg1 envOk storeEmpty taskW).result) := by
  refine ⟨?_, ?_, ?_⟩
  · exact C8_registry_lifecycle.1 regW
      (RegReachable.step RegReachable.init
        (RegStep.create "agent-1" "Reviewer" ["review"] RegState.init))
      (0, agentRecW) (by decide)
  · exact C8_registry_lifecycle.2.1 regW (acquireAgent regW 0 taskW)
      (RegReachable.step RegReachable.init
        (RegStep.create "agent-1" "Reviewer" ["review"] RegState.init))
      (RegStep.acquire "agent-1" 0 taskW regW rfl)
      0 agentRecW { agentRecW with status := AgentStatus.busy, currentTask := some taskW }
      rfl rfl
  · exact C8_registry_lifecycle.2.2 cfg1 envOk storeEmpty regW [] "agent-1"
      taskW 0 agentRecW rfl rfl

/-- Counterexample for claim C9. The claim asserts that `getStatus`
returns a defensive copy through which no later registry mutation is
observable. The source copies only the map (`new Map(this.agents)`,
src/core/agent.ts line 189) while sharing the `Agent` objects: after
taking a snapshot of the one-agent registry, the acquisition step of
`assignTask` mutates the agent to busy, and looking the agent up
through the old snapshot now shows status busy instead of the idle it
had when the snapshot was taken. -/
theorem C9_counterexample :
    (observeSnapshot (getStatus regW) (acquireAgent regW 0 taskW).heap
        "agent-1").map Agent.status = some AgentStatus.busy ∧
    (observeSnapshot (getStatus regW) regW.heap "agent-1").map Agent.status =
      some AgentStatus.idle ∧
    AgentStatus.busy ≠ AgentStatus.idle := by
  refine ⟨?_, ?_, ?_⟩ <;> decide

/-- Claim C9, amended: the snapshot returned by `getStatus` is a shallow
copy. Additions to the registry after the snapshot are not observable
through it (a `createAgent` allocates a fresh reference, so every lookup
through the snapshot is unchanged), but mutations of an agent object
already present in the snapshot, such as the acquisition step of
`assignTask` setting status busy and recording the current task, are
observable through the snapshot, because the snapshot shares the agent
objects by reference. -/
theorem C9_snapshot_is_shallow :
    (∀ (st : RegState) (freshId name : String) (caps : List String)
       (agentId : String),
      (∀ q ∈ st.agents, q.2 < st.nextRef) →
      observeSnapshot (getStatus st) (createAgent st freshId name caps).heap
        agentId = observeSnapshot (getStatus st) st.heap agentId) ∧
    (∀ (st : RegState) (agentId : String) (ref : Nat) (task : AgentTask)
       (a : Agent),
      alistLookup agentId st.agents = some ref →
      alistLookup ref st.heap = some a →
      observeSnapshot (getStatus st) (acquireAgent st ref task).heap agentId =
        some { a with status := AgentStatus.busy, currentTask := some task }) := by
  constructor
  · intro st freshId name caps agentId hwf
    unfold observeSnapshot getStatus
    cases hs : alistLookup agentId st.agents with
    | none => rfl
    | some ref =>
      have hlt : ref < st.nextRef := hwf (agentId, ref) (alistLookup_mem hs)
      have hne : st.nextRef ≠ ref := Nat.ne_of_gt hlt
      simp only [createAgent, alistLookup, hne, if_false]
  · intro st agentId ref task a hfound ha
    unfold observeSnapshot getStatus
    rw [hfound]
    unfold acquireAgent
    rw [ha]
    exact alistLookup_alistSet_some ha

/-- Witness for C9: adding a second agent to the one-agent registry is
invisible through the earlier snapshot, while acquiring the existing
agent is visible through it. -/
theorem C9_witness :
    observeSnapshot (getStatus regW)
        (createAgent regW "agent-2" "B" []).heap "agent-1" =
      observeSnapshot (getStatus regW) regW.heap "agent-1" ∧
    observeSnapshot (getStatus regW) (acquireAgent regW 0 taskW).heap
        "agent-1" =
      some { agentRecW with
             status := AgentStatus.busy
             currentTask := some taskW } :=
  ⟨C9_snapshot_is_shallow.1 regW "agent-2" "B" [] "agent-1" (by decide),
   C9_snapshot_is_shallow.2 regW "agent-1" 0 taskW agentRecW rfl rfl⟩
